import Mathlib

/-!
dikenang-server: vote counter / live subscription slice and Google OAuth login

Shallow embedding of the behaviour described by the repository's
specification and of `AuthService.googleAuth` from the sources.

The server-side implementation of the vote mutation handlers, counter
projector, event publisher and subscription gateway (the NestJS posts
service/resolver) is not among the source files; only its generated GraphQL
type declarations (`dikweb/generated/graphql.tsx`) and client callers are.
Those components are therefore modelled from the specification, as marked
on each definition. `AuthService.googleAuth` is embedded from its source.
-/

namespace Dikenang

/-- Modelled from the spec: vote kind, `kind ∈ {upvote, downvote}`
(spec §3, Vote Membership). -/
inductive VoteKind
  | up
  | down
deriving DecidableEq, Repr

/-- The opposite vote kind, used to state the mutual-exclusion invariant. -/
def VoteKind.flip : VoteKind → VoteKind
  | .up => .down
  | .down => .up

/-- Modelled from the spec: the persisted state of the voting slice — the
set of existing post identifiers and the vote membership relation between
`(post, user, kind)` (spec §3; the posts service holding it is missing from
the sources). -/
structure VoteState where
  posts : Finset String
  membership : Finset (String × String × VoteKind)
deriving DecidableEq

/-- Modelled from the spec: the error kinds of §7 that reach the vote
mutation caller. -/
inductive VoteError
  | notFound
  | unavailable
deriving DecidableEq, Repr

/-- The membership rows of one post and one kind — the "membership set" the
Counter Projector reads (spec §4.2). -/
def voteMembership (s : VoteState) (p : String) (k : VoteKind) :
    Finset (String × String × VoteKind) :=
  s.membership.filter (fun m => m.1 = p ∧ m.2.2 = k)

/-- The voters of one post and one kind: the user identifiers carried by
the membership rows (spec §4.2, the `voters: [userId...]` field). -/
def votersOf (s : VoteState) (p : String) (k : VoteKind) : Finset String :=
  (voteMembership s p k).image (fun m => m.2.1)

/-- The count a vote mutation returns: the number of voters of that post
and kind (spec §6, `addUpvote(postId) -> integer count`). -/
def voteCount (s : VoteState) (p : String) (k : VoteKind) : Nat :=
  (votersOf s p k).card

/-- Modelled from the spec: the Counter Projector (spec §4.2) — a pure read
returning `{count, voters}` for a post and kind from the membership set. -/
def projector (s : VoteState) (p : String) (k : VoteKind) :
    Nat × Finset String :=
  (voteCount s p k, votersOf s p k)

/-- Modelled from the spec: `addUpvote` / `addDownvote` (spec §4.1) — fails
with NotFound if the post does not exist; a no-op returning the current
count if the user already holds that kind of vote; otherwise inserts the
membership and returns the updated count. -/
def addVote (k : VoteKind) (p u : String) (s : VoteState) :
    Except VoteError (Nat × VoteState) :=
  if p ∈ s.posts then
    if (p, u, k) ∈ s.membership then
      .ok (voteCount s p k, s)
    else
      let s' : VoteState := { s with membership := insert (p, u, k) s.membership }
      .ok (voteCount s' p k, s')
  else
    .error .notFound

/-- Modelled from the spec: `removeUpvote` / `removeDownvote` (spec §4.1) —
fails with NotFound if the post does not exist (spec §7); removes the
membership if present (idempotent no-op otherwise) and returns the updated
count. -/
def removeVote (k : VoteKind) (p u : String) (s : VoteState) :
    Except VoteError (Nat × VoteState) :=
  if p ∈ s.posts then
    let s' : VoteState := { s with membership := s.membership.erase (p, u, k) }
    .ok (voteCount s' p k, s')
  else
    .error .notFound

/-- The `addUpvote(postId, userId)` mutation of spec §4.1 / §6. -/
def addUpvote (p u : String) (s : VoteState) : Except VoteError (Nat × VoteState) :=
  addVote .up p u s

/-- The `removeUpvote(postId, userId)` mutation of spec §4.1 / §6. -/
def removeUpvote (p u : String) (s : VoteState) : Except VoteError (Nat × VoteState) :=
  removeVote .up p u s

/-- The `addDownvote(postId, userId)` mutation of spec §4.1 / §6. -/
def addDownvote (p u : String) (s : VoteState) : Except VoteError (Nat × VoteState) :=
  addVote .down p u s

/-- The `removeDownvote(postId, userId)` mutation of spec §4.1 / §6. -/
def removeDownvote (p u : String) (s : VoteState) : Except VoteError (Nat × VoteState) :=
  removeVote .down p u s

/-- One vote mutation request: which of the four mutations, on which post,
by which (authenticated) user. -/
structure VoteOp where
  isAdd : Bool
  kind : VoteKind
  post : String
  user : String
deriving DecidableEq, Repr

/-- The state after one vote mutation: the new state on success, the old
state unchanged when the mutation fails. -/
def stepOp (op : VoteOp) (s : VoteState) : VoteState :=
  match (if op.isAdd then addVote op.kind op.post op.user s
         else removeVote op.kind op.post op.user s) with
  | .ok r => r.2
  | .error _ => s

/-- The state after a sequence of vote mutations. -/
def runOps (s : VoteState) (ops : List VoteOp) : VoteState :=
  match ops with
  | [] => s
  | op :: rest => runOps (stepOp op s) rest

/-- The mutual-exclusion invariant of spec §3: a user appears in at most
one of the upvoter and downvoter sets of a given post — no membership row
coexists with its opposite-kind row. -/
def MutualExclusion (s : VoteState) : Prop :=
  ∀ m ∈ s.membership, (m.1, m.2.1, m.2.2.flip) ∉ s.membership

instance (s : VoteState) : Decidable (MutualExclusion s) := by
  unfold MutualExclusion
  infer_instance

/-- Inserting one membership row — the state change of a successful
`addVote`. -/
def addMember (p u : String) (k : VoteKind) (s : VoteState) : VoteState :=
  { s with membership := insert (p, u, k) s.membership }

/-- Erasing one membership row — the state change of `removeVote`. -/
def delMember (p u : String) (k : VoteKind) (s : VoteState) : VoteState :=
  { s with membership := s.membership.erase (p, u, k) }

/-- The retract-before-switch discipline of spec §3: a vote of one kind is
only added while the user holds no vote of the opposite kind on that
post. -/
def guardOk (s : VoteState) (op : VoteOp) : Bool :=
  !(op.isAdd && decide ((op.post, op.user, op.kind.flip) ∈ s.membership))

/-- A run of vote mutations follows the retract-before-switch discipline
at every step. -/
def guardedRun : VoteState → List VoteOp → Bool
  | _, [] => true
  | s, op :: rest => guardOk s op && guardedRun (stepOp op s) rest

/-- A mutation request that does not change state: an add by a user who
already holds that vote, or a remove by a user who does not (the
idempotent no-op cases of spec §4.1). -/
def VoteOp.noChange (op : VoteOp) (s : VoteState) : Bool :=
  op.isAdd == decide ((op.post, op.user, op.kind) ∈ s.membership)

/-- Modelled from the spec: the payload pushed to subscribers — the updated
counter payload `{count, voters}` of the post (spec §4.2 / §6; the
`UpvoteDTO`/`DownvoteDTO` shapes of `dikweb/generated/graphql.tsx`). -/
structure VotePayload where
  votes : Nat
  voters : Finset String
deriving DecidableEq

/-- Modelled from the spec: an event of the Event Publisher, keyed by post
identifier (spec §4.3, `publish(postId, kind, payload)`). -/
structure Event where
  postId : String
  kind : VoteKind
  payload : VotePayload
deriving DecidableEq

/-- Modelled from the spec: one client subscription of the Subscription
Gateway — a client connection in state `Subscribed(postId)`
(spec §4.4; `SubscriptionUpvoteSubscriptionArgs` of
`dikweb/generated/graphql.tsx`). -/
structure Subscription where
  client : String
  postId : String
deriving DecidableEq, Repr

/-- Modelled from the spec: the gateway's delivery of one published event —
the global event stream filtered to the subscriptions whose post
identifier matches the event's; each matching subscription is pushed the
payload (spec §2 / §4.4). -/
def deliver (subs : List Subscription) (e : Event) : List (Subscription × Event) :=
  (subs.filter (fun sub => sub.postId = e.postId)).map (fun sub => (sub, e))

/-- Modelled from the spec: a full vote mutation with both effect paths
(spec §4.1 side effect, §7): given the availability of the persistence
path and of the event-publish path, returns the caller-visible result, the
post-state, and the published events. `Unavailable` on the persistence
path aborts the mutation (the retryable error of §7) leaving the state
unchanged; `Unavailable` on the event-publish path is swallowed — the
event is lost but the mutation still succeeds with its committed state.
Idempotent no-op calls emit no event (the policy choice left open in
§4.1, pinned here). -/
def runVoteMutation (op : VoteOp) (persistOk publishOk : Bool) (s : VoteState) :
    Except VoteError Nat × VoteState × List Event :=
  if op.post ∈ s.posts then
    if op.noChange s then
      (.ok (voteCount s op.post op.kind), s, [])
    else if persistOk then
      let s' := stepOp op s
      (.ok (voteCount s' op.post op.kind), s',
        if publishOk then
          [⟨op.post, op.kind, ⟨voteCount s' op.post op.kind, votersOf s' op.post op.kind⟩⟩]
        else [])
    else
      (.error .unavailable, s, [])
  else
    (.error .notFound, s, [])

/-- A state with one post and no votes yet (the scenario state of
spec §8). -/
def exState : VoteState := ⟨{"p1"}, ∅⟩

/-- A state with one post already upvoted by the one user. -/
def sAlready : VoteState := ⟨{"p1"}, {("p1", "u1", VoteKind.up)}⟩

instance {ε α : Type} [DecidableEq ε] [DecidableEq α] : DecidableEq (Except ε α) := fun a b => by
  cases a <;> cases b
  case error.error e1 e2 => exact decidable_of_iff (e1 = e2) (by simp)
  case error.ok => exact isFalse (fun h => Except.noConfusion h)
  case ok.error => exact isFalse (fun h => Except.noConfusion h)
  case ok.ok a1 a2 => exact decidable_of_iff (a1 = a2) (by simp)

/-- The Google profile data consumed by `AuthService.googleAuth`
(`GoogleDTO`, with the fields `googleAuth` reads in the source). -/
structure GoogleDTO where
  oauth_id : String
  email : String
  given_name : String
  profile_url : String
deriving DecidableEq, Repr

/-- A persisted user, with the fields `googleAuth` passes to
`usersService.create` in the source. -/
structure User where
  oauth_id : String
  email : String
  username : String
  avatar_url : String
deriving DecidableEq, Repr

/-- Modelled from the spec: `usersService.findOauth` — the users service
(`users.service.ts`) is missing from the sources; per its use in
`AuthService.googleAuth` it looks a user up by OAuth identifier in the
user store. -/
def findOauth (store : List User) (oid : String) : Option User :=
  store.find? (fun u => u.oauth_id == oid)

/-- Modelled from the spec: `usersService.create` — the users service
(`users.service.ts`) is missing from the sources; per its use in
`AuthService.googleAuth` it persists the given user in the user store and
returns it. -/
def create (store : List User) (u : User) : User × List User :=
  (u, store ++ [u])

/-- The value `googleAuth` returns: either the `RequestTimeoutException`
class itself, returned as an ordinary value (the source's
`return RequestTimeoutException` — the class is neither instantiated nor
thrown), or a user. -/
inductive AuthResult
  | requestTimeoutExceptionClass
  | user (u : User)
deriving DecidableEq, Repr

/-- A user-store operation performed by `googleAuth`, recorded as a trace
of the store accesses the call makes. -/
inductive StoreOp
  | findOauthOp (oid : String)
  | createOp (u : User)
deriving DecidableEq, Repr

/-- The user `googleAuth` creates from a Google DTO: the DTO's `oauth_id`
and `email`, `avatar_url` from `profile_url`, and a randomized username
derived from `given_name` (`Randomize(res.given_name)` in the source;
`Randomize` is missing from the sources, so the embedding is parametric in
it). -/
def mkGoogleUser (randomize : String → String) (dto : GoogleDTO) : User :=
  { oauth_id := dto.oauth_id
    email := dto.email
    username := randomize dto.given_name
    avatar_url := dto.profile_url }

/-- Embedding of `AuthService.googleAuth` (src/unnamed/part_000): a falsy argument
returns the `RequestTimeoutException` class; otherwise the user is looked
up by `oauth_id` and returned, being created first when absent. Besides
the returned value, the embedding returns the updated user store and the
trace of store operations the call performed. -/
def googleAuth (randomize : String → String) (res : Option GoogleDTO)
    (store : List User) : AuthResult × List User × List StoreOp :=
  match res with
  | none => (.requestTimeoutExceptionClass, store, [])
  | some dto =>
    match findOauth store dto.oauth_id with
    | some u => (.user u, store, [.findOauthOp dto.oauth_id])
    | none =>
      let w := mkGoogleUser randomize dto
      let r := create store w
      (.user r.1, r.2, [.findOauthOp dto.oauth_id, .createOp w])

/-- The user store after a sequence of `googleAuth` calls. -/
def runAuths (randomize : String → String) (store : List User) :
    List (Option GoogleDTO) → List User
  | [] => store
  | r :: rest => runAuths randomize (googleAuth randomize r store).2.1 rest

/-- How many stored users carry the given OAuth identifier. -/
def countOauth (store : List User) (oid : String) : Nat :=
  (store.filter (fun u => u.oauth_id == oid)).length

theorem VoteKind.flip_ne (k : VoteKind) : k.flip ≠ k := by
  cases k <;> simp [VoteKind.flip]

theorem VoteKind.flip_flip (k : VoteKind) : k.flip.flip = k := by
  cases k <;> rfl

theorem mem_votersOf {s : VoteState} {p u : String} {k : VoteKind} :
    u ∈ votersOf s p k ↔ (p, u, k) ∈ s.membership := by
  unfold votersOf voteMembership
  simp only [Finset.mem_image, Finset.mem_filter]
  constructor
  · rintro ⟨m, ⟨hm, hp, hk⟩, hu⟩
    have : m = (p, u, k) := Prod.ext hp (Prod.ext hu hk)
    exact this ▸ hm
  · intro h
    exact ⟨(p, u, k), ⟨h, rfl, rfl⟩, rfl⟩

theorem votersOf_addMember (s : VoteState) (p u : String) (k : VoteKind) :
    votersOf (addMember p u k s) p k = insert u (votersOf s p k) := by
  ext x
  simp [mem_votersOf, addMember, Finset.mem_insert, Prod.mk.injEq]

theorem votersOf_delMember (s : VoteState) (p u : String) (k : VoteKind) :
    votersOf (delMember p u k s) p k = (votersOf s p k).erase u := by
  ext x
  simp [mem_votersOf, delMember, Finset.mem_erase, Prod.mk.injEq]

theorem voteCount_addMember_of_not_mem {s : VoteState} {p u : String} {k : VoteKind}
    (h : (p, u, k) ∉ s.membership) :
    voteCount (addMember p u k s) p k = voteCount s p k + 1 := by
  unfold voteCount
  rw [votersOf_addMember, Finset.card_insert_of_not_mem (fun hx => h (mem_votersOf.mp hx))]

theorem delMember_addMember {s : VoteState} {p u : String} {k : VoteKind}
    (h : (p, u, k) ∉ s.membership) :
    delMember p u k (addMember p u k s) = s := by
  show VoteState.mk s.posts ((insert (p, u, k) s.membership).erase (p, u, k)) = s
  rw [Finset.erase_insert h]

theorem addMember_of_mem {s : VoteState} {p u : String} {k : VoteKind}
    (h : (p, u, k) ∈ s.membership) :
    addMember p u k s = s := by
  show VoteState.mk s.posts (insert (p, u, k) s.membership) = s
  rw [Finset.insert_eq_self.mpr h]

theorem delMember_of_not_mem {s : VoteState} {p u : String} {k : VoteKind}
    (h : (p, u, k) ∉ s.membership) :
    delMember p u k s = s := by
  show VoteState.mk s.posts (s.membership.erase (p, u, k)) = s
  rw [Finset.erase_eq_of_not_mem h]

/-- Characterization of `stepOp`: a failed mutation leaves the state
unchanged; a successful add inserts its row, a successful remove erases
it. -/
theorem stepOp_eq (op : VoteOp) (s : VoteState) :
    stepOp op s =
      if op.post ∈ s.posts then
        (if op.isAdd then addMember op.post op.user op.kind s
         else delMember op.post op.user op.kind s)
      else s := by
  unfold stepOp addVote removeVote
  by_cases hp : op.post ∈ s.posts
  · cases hAdd : op.isAdd
    · simp [hp, hAdd, delMember]
    · by_cases hm : (op.post, op.user, op.kind) ∈ s.membership
      · simp [hp, hAdd, hm, addMember_of_mem hm]
      · simp [hp, hAdd, hm, addMember]
  · cases hAdd : op.isAdd <;> simp [hp, hAdd]

theorem stepOp_posts (op : VoteOp) (s : VoteState) : (stepOp op s).posts = s.posts := by
  rw [stepOp_eq]
  split
  · split <;> rfl
  · rfl

/-- The count a mutation returns is the cardinality of the persisted
membership rows it reads: the user-id projection is injective on the rows
of one post and one kind. -/
theorem voteCount_eq_card_voteMembership (s : VoteState) (p : String) (k : VoteKind) :
    voteCount s p k = (voteMembership s p k).card := by
  unfold voteCount votersOf
  apply Finset.card_image_of_injOn
  intro m1 h1 m2 h2 h
  rw [Finset.mem_coe] at h1 h2
  unfold voteMembership at h1 h2
  rw [Finset.mem_filter] at h1 h2
  exact Prod.ext (h1.2.1.trans h2.2.1.symm) (Prod.ext h (h1.2.2.trans h2.2.2.symm))

theorem mem_stepOp_membership {s : VoteState} {op : VoteOp} {m : String × String × VoteKind}
    (h : m ∈ (stepOp op s).membership) :
    m = (op.post, op.user, op.kind) ∨ m ∈ s.membership := by
  rw [stepOp_eq] at h
  split at h
  · split at h
    · exact (Finset.mem_insert.mp h).imp id id
    · exact Or.inr (Finset.mem_of_mem_erase h)
  · exact Or.inr h

theorem mutualExclusion_stepOp {s : VoteState} {op : VoteOp}
    (hinv : MutualExclusion s) (hg : guardOk s op = true) :
    MutualExclusion (stepOp op s) := by
  rw [stepOp_eq]
  split
  · split
    case isTrue hp hAdd =>
      have hflip : (op.post, op.user, op.kind.flip) ∉ s.membership := by
        simp only [guardOk, hAdd, Bool.true_and, Bool.not_eq_true',
          decide_eq_false_iff_not] at hg
        exact hg
      intro m hm hmf
      simp only [addMember, Finset.mem_insert] at hm hmf
      rcases hm with rfl | hm
      · rcases hmf with heq | hmem
        · exact VoteKind.flip_ne op.kind (congrArg (fun t => t.2.2) heq)
        · exact hflip hmem
      · rcases hmf with heq | hmem
        · rw [Prod.mk.injEq, Prod.mk.injEq] at heq
          have hmx : m = (op.post, op.user, op.kind.flip) := by
            refine Prod.ext heq.1 (Prod.ext heq.2.1 ?_)
            rw [← heq.2.2, VoteKind.flip_flip]
          exact hflip (hmx ▸ hm)
        · exact hinv m hm hmem
    case isFalse hp hAdd =>
      intro m hm hmf
      exact hinv m (Finset.mem_of_mem_erase hm) (Finset.mem_of_mem_erase hmf)
  · exact hinv

theorem mutualExclusion_runOps {s : VoteState} {ops : List VoteOp}
    (hinv : MutualExclusion s) (hg : guardedRun s ops = true) :
    MutualExclusion (runOps s ops) := by
  induction ops generalizing s with
  | nil => exact hinv
  | cons op rest ih =>
    rw [guardedRun, Bool.and_eq_true] at hg
    exact ih (mutualExclusion_stepOp hinv hg.1) hg.2

theorem stepOp_of_mem {op : VoteOp} {s : VoteState} (h : op.post ∈ s.posts) :
    stepOp op s =
      if op.isAdd then addMember op.post op.user op.kind s
      else delMember op.post op.user op.kind s := by
  rw [stepOp_eq, if_pos h]

theorem stepOp_of_not_mem {op : VoteOp} {s : VoteState} (h : op.post ∉ s.posts) :
    stepOp op s = s := by
  rw [stepOp_eq, if_neg h]

theorem addMember_delMember_comm {p1 u1 p2 u2 : String} {k1 k2 : VoteKind}
    {s : VoteState} (h : (p1, u1, k1) ≠ (p2, u2, k2)) :
    addMember p1 u1 k1 (delMember p2 u2 k2 s) = delMember p2 u2 k2 (addMember p1 u1 k1 s) := by
  simp only [addMember, delMember]
  exact congrArg (VoteState.mk s.posts) (Finset.erase_insert_of_ne h).symm

theorem addMember_addMember_comm (p1 u1 p2 u2 : String) (k1 k2 : VoteKind)
    (s : VoteState) :
    addMember p1 u1 k1 (addMember p2 u2 k2 s) = addMember p2 u2 k2 (addMember p1 u1 k1 s) := by
  simp only [addMember]
  exact congrArg (VoteState.mk s.posts) (Finset.Insert.comm _ _ _)

theorem delMember_delMember_comm (p1 u1 p2 u2 : String) (k1 k2 : VoteKind)
    (s : VoteState) :
    delMember p1 u1 k1 (delMember p2 u2 k2 s) = delMember p2 u2 k2 (delMember p1 u1 k1 s) := by
  simp only [delMember]
  exact congrArg (VoteState.mk s.posts) Finset.erase_right_comm

/-- Claim C1 — counterexample to the claim as stated: from a state with
one post, no votes, and the mutual-exclusion invariant holding, the
reachable state after `addUpvote` then `addDownvote` by the same user has
the user in both the upvoter and the downvoter set: adding one kind never
clears the other (the switch is two separate explicit mutations,
spec §3). -/
theorem C1_counterexample_add_both_kinds :
    MutualExclusion exState ∧
    ¬ MutualExclusion (runOps exState
      [⟨true, .up, "p1", "u1"⟩, ⟨true, .down, "p1", "u1"⟩]) ∧
    ("p1", "u1", VoteKind.up) ∈ (runOps exState
      [⟨true, .up, "p1", "u1"⟩, ⟨true, .down, "p1", "u1"⟩]).membership ∧
    ("p1", "u1", VoteKind.down) ∈ (runOps exState
      [⟨true, .up, "p1", "u1"⟩, ⟨true, .down, "p1", "u1"⟩]).membership := by
  decide

/-- Claim C1 (amended): mutual exclusion is not preserved by arbitrary
operation sequences — adding one kind does not clear the other — but it is
preserved by every run that follows the retract-before-switch discipline
of spec §3: a vote of one kind is only added while the user holds no vote
of the opposite kind on that post. -/
theorem C1_mutual_exclusion_guarded_runs (s : VoteState) (ops : List VoteOp)
    (hinv : MutualExclusion s) (hg : guardedRun s ops = true) :
    MutualExclusion (runOps s ops) :=
  mutualExclusion_runOps hinv hg

/-- Witness for C1: a concrete guarded run — upvote, retract the upvote,
then downvote — keeps the invariant. -/
theorem C1_mutual_exclusion_guarded_runs_witness :
    MutualExclusion (runOps exState
      [⟨true, .up, "p1", "u1"⟩, ⟨false, .up, "p1", "u1"⟩, ⟨true, .down, "p1", "u1"⟩]) :=
  C1_mutual_exclusion_guarded_runs exState
    [⟨true, .up, "p1", "u1"⟩, ⟨false, .up, "p1", "u1"⟩, ⟨true, .down, "p1", "u1"⟩]
    (by decide) (by decide)

/-- Claim C2: when the post exists, calling `addUpvote` twice in sequence
yields the same final count and the same final state as calling it once;
the second call is a no-op returning the current count. -/
theorem C2_addUpvote_idempotent (s : VoteState) (p u : String) (hp : p ∈ s.posts) :
    ∃ c s1, addUpvote p u s = .ok (c, s1) ∧ addUpvote p u s1 = .ok (c, s1) := by
  unfold addUpvote addVote
  by_cases hm : (p, u, VoteKind.up) ∈ s.membership
  · exact ⟨voteCount s p .up, s, by simp [hp, hm], by simp [hp, hm]⟩
  · refine ⟨voteCount (addMember p u .up s) p .up, addMember p u .up s, ?_, ?_⟩
    · simp [hp, hm, addMember]
    · have hp' : p ∈ (addMember p u .up s).posts := hp
      have hm' : (p, u, VoteKind.up) ∈ (addMember p u .up s).membership :=
        Finset.mem_insert_self _ _
      simp [hp', hm']

/-- Witness for C2 at the scenario state of spec §8. -/
theorem C2_addUpvote_idempotent_witness :
    ∃ c s1, addUpvote "p1" "u1" exState = .ok (c, s1) ∧
      addUpvote "p1" "u1" s1 = .ok (c, s1) :=
  C2_addUpvote_idempotent exState "p1" "u1" (by decide)

/-- Claim C3 — counterexample to the claim as stated: when the user
already upvoted the post, `addUpvote` is a no-op but `removeUpvote` still
removes the membership, so the round trip returns count 0, not the
pre-add value 1. -/
theorem C3_counterexample_already_upvoted :
    "p1" ∈ sAlready.posts ∧
    voteCount sAlready "p1" VoteKind.up = 1 ∧
    addUpvote "p1" "u1" sAlready = .ok (1, sAlready) ∧
    removeUpvote "p1" "u1" sAlready = .ok (0, VoteState.mk {"p1"} ∅) ∧
    (0 : Nat) ≠ 1 := by
  decide

/-- Claim C3 (amended): when the post exists and the user has NOT already
upvoted it, `addUpvote` followed by `removeUpvote` returns the count to
its pre-add value and the state to exactly the pre-add state; and
`removeUpvote` on a user with no upvote membership is an idempotent no-op
returning the current count with the state unchanged. -/
theorem C3_add_remove_round_trip_fresh (s : VoteState) (p u : String)
    (hp : p ∈ s.posts) (hm : (p, u, VoteKind.up) ∉ s.membership) :
    addUpvote p u s = .ok (voteCount s p VoteKind.up + 1, addMember p u VoteKind.up s) ∧
    removeUpvote p u (addMember p u VoteKind.up s) = .ok (voteCount s p VoteKind.up, s) ∧
    removeUpvote p u s = .ok (voteCount s p VoteKind.up, s) := by
  refine ⟨?_, ?_, ?_⟩
  · unfold addUpvote addVote
    simp [hp, hm, addMember]
    exact voteCount_addMember_of_not_mem hm
  · unfold removeUpvote removeVote
    have hp' : p ∈ (addMember p u VoteKind.up s).posts := hp
    rw [if_pos hp']
    show Except.ok (voteCount (delMember p u VoteKind.up (addMember p u VoteKind.up s)) p
      VoteKind.up, delMember p u VoteKind.up (addMember p u VoteKind.up s)) = _
    rw [delMember_addMember hm]
  · unfold removeUpvote removeVote
    rw [if_pos hp]
    show Except.ok (voteCount (delMember p u VoteKind.up s) p VoteKind.up,
      delMember p u VoteKind.up s) = _
    rw [delMember_of_not_mem hm]

/-- Witness for C3 (amended) at the scenario state of spec §8. -/
theorem C3_add_remove_round_trip_fresh_witness :
    addUpvote "p1" "u1" exState =
      .ok (voteCount exState "p1" VoteKind.up + 1, addMember "p1" "u1" VoteKind.up exState) ∧
    removeUpvote "p1" "u1" (addMember "p1" "u1" VoteKind.up exState) =
      .ok (voteCount exState "p1" VoteKind.up, exState) ∧
    removeUpvote "p1" "u1" exState = .ok (voteCount exState "p1" VoteKind.up, exState) :=
  C3_add_remove_round_trip_fresh exState "p1" "u1" (by decide) (by decide)

/-- Claim C4: `addUpvote` fails with the typed NotFound error exactly when
the post does not exist (and NotFound is the only error it fails with);
when the post exists and the user has not yet upvoted it, it inserts the
membership row and returns the updated count — one more than before. -/
theorem C4_addUpvote_notFound_iff (s : VoteState) (p u : String) :
    (addUpvote p u s = .error VoteError.notFound ↔ p ∉ s.posts) ∧
    (∀ e, addUpvote p u s = .error e → e = VoteError.notFound) ∧
    (p ∈ s.posts → (p, u, VoteKind.up) ∉ s.membership →
      addUpvote p u s = .ok (voteCount s p VoteKind.up + 1, addMember p u VoteKind.up s)) := by
  refine ⟨?_, ?_, ?_⟩
  · unfold addUpvote addVote
    by_cases hp : p ∈ s.posts
    · by_cases hm : (p, u, VoteKind.up) ∈ s.membership <;> simp [hp, hm]
    · simp [hp]
  · intro e he
    unfold addUpvote addVote at he
    by_cases hp : p ∈ s.posts
    · by_cases hm : (p, u, VoteKind.up) ∈ s.membership <;> simp [hp, hm] at he
    · simp [hp] at he
      exact he.symm
  · intro hp hm
    unfold addUpvote addVote
    simp [hp, hm, addMember]
    exact voteCount_addMember_of_not_mem hm

/-- Witness for C4 at the scenario state of spec §8: the missing post
"p2" fails with NotFound, and a fresh upvote on the existing post "p1"
inserts and returns count 1. -/
theorem C4_addUpvote_notFound_iff_witness :
    addUpvote "p2" "u1" exState = .error VoteError.notFound ∧
    addUpvote "p1" "u1" exState =
      .ok (voteCount exState "p1" VoteKind.up + 1, addMember "p1" "u1" VoteKind.up exState) :=
  ⟨(C4_addUpvote_notFound_iff exState "p2" "u1").1.mpr (by decide),
   (C4_addUpvote_notFound_iff exState "p1" "u1").2.2 (by decide) (by decide)⟩

/-- Claim C5: the Counter Projector is a pure read of the persisted
membership relation, and its count equals the cardinality of the
corresponding membership set in every reachable state — counter and voter
list never diverge. -/
theorem C5_projector_count_eq_card (s : VoteState) (ops : List VoteOp)
    (p : String) (k : VoteKind) :
    projector (runOps s ops) p k =
      ((voteMembership (runOps s ops) p k).card, votersOf (runOps s ops) p k) := by
  unfold projector
  rw [voteCount_eq_card_voteMembership]

/-- Claim C6: topic isolation — the gateway delivers a published event
only to subscriptions whose post identifier equals the event's, so a
subscriber of post A is never delivered an event published for a distinct
post B. -/
theorem C6_topic_isolation (subs : List Subscription) (e : Event)
    (sub : Subscription) (hne : sub.postId ≠ e.postId) :
    (∀ d ∈ deliver subs e, d.1.postId = e.postId) ∧
    ∀ d ∈ deliver subs e, d.1 ≠ sub := by
  have hall : ∀ d ∈ deliver subs e, d.1.postId = e.postId := by
    intro d hd
    unfold deliver at hd
    rw [List.mem_map] at hd
    obtain ⟨x, hx, rfl⟩ := hd
    exact of_decide_eq_true (List.mem_filter.mp hx).2
  refine ⟨hall, fun d hd hds => hne ?_⟩
  rw [← hds]
  exact hall d hd

/-- Witness for C6: a subscriber of post "A" is not delivered an event
published for post "B". -/
theorem C6_topic_isolation_witness :
    (⟨⟨"c1", "A"⟩, ⟨"B", VoteKind.up, ⟨1, {"u1"}⟩⟩⟩ : Subscription × Event) ∉
      deliver [⟨"c1", "A"⟩] ⟨"B", VoteKind.up, ⟨1, {"u1"}⟩⟩ :=
  fun hmem =>
    (C6_topic_isolation [⟨"c1", "A"⟩] ⟨"B", VoteKind.up, ⟨1, {"u1"}⟩⟩ ⟨"c1", "A"⟩
      (by decide)).2 _ hmem rfl

/-- Claim C7: for a state-changing vote mutation on an existing post,
`Unavailable` on the persistence path aborts the mutation with the
retryable error, leaving the membership unchanged and publishing nothing;
`Unavailable` on the event-publish path is swallowed — the mutation still
succeeds with its committed state change intact, only the event is
lost. -/
theorem C7_unavailable_paths (op : VoteOp) (s : VoteState)
    (hpost : op.post ∈ s.posts) (hchange : op.noChange s = false) :
    (∀ publishOk, runVoteMutation op false publishOk s = (.error .unavailable, s, [])) ∧
    runVoteMutation op true false s =
      (.ok (voteCount (stepOp op s) op.post op.kind), stepOp op s, []) ∧
    runVoteMutation op true true s =
      (.ok (voteCount (stepOp op s) op.post op.kind), stepOp op s,
        [⟨op.post, op.kind,
          ⟨voteCount (stepOp op s) op.post op.kind, votersOf (stepOp op s) op.post op.kind⟩⟩]) := by
  refine ⟨fun publishOk => ?_, ?_, ?_⟩ <;> simp [runVoteMutation, hpost, hchange]

/-- Witness for C7 at the scenario state of spec §8: a fresh upvote with
the persistence path down fails retryably without state change; with only
the publish path down it succeeds and commits. -/
theorem C7_unavailable_paths_witness :
    runVoteMutation ⟨true, .up, "p1", "u1"⟩ false true exState =
      (.error .unavailable, exState, []) ∧
    runVoteMutation ⟨true, .up, "p1", "u1"⟩ true false exState =
      (.ok (voteCount (stepOp ⟨true, .up, "p1", "u1"⟩ exState) "p1" VoteKind.up),
        stepOp ⟨true, .up, "p1", "u1"⟩ exState, []) :=
  ⟨(C7_unavailable_paths ⟨true, .up, "p1", "u1"⟩ exState (by decide) (by decide)).1 true,
   (C7_unavailable_paths ⟨true, .up, "p1", "u1"⟩ exState (by decide) (by decide)).2.1⟩

theorem VoteState.eq_of {s t : VoteState} (h1 : s.posts = t.posts)
    (h2 : s.membership = t.membership) : s = t := by
  cases s
  cases t
  cases h1
  cases h2
  rfl

theorem mem_stepOp {op : VoteOp} {s : VoteState} {m : String × String × VoteKind} :
    m ∈ (stepOp op s).membership ↔
      ((op.post ∈ s.posts ∧ op.isAdd = true ∧
          (m = (op.post, op.user, op.kind) ∨ m ∈ s.membership)) ∨
       (op.post ∈ s.posts ∧ op.isAdd = false ∧
          m ≠ (op.post, op.user, op.kind) ∧ m ∈ s.membership) ∨
       (op.post ∉ s.posts ∧ m ∈ s.membership)) := by
  rw [stepOp_eq]
  by_cases hp : op.post ∈ s.posts
  · cases ha : op.isAdd
    · simp [hp, ha, delMember, Finset.mem_erase, and_comm]
    · simp [hp, ha, addMember, Finset.mem_insert]
  · simp [hp]

/-- Claim C8: two vote mutations on the same post by distinct users
commute — applying them in either order yields the same final membership
state, hence the same counts (set insert/remove). -/
theorem C8_distinct_users_commute (op1 op2 : VoteOp) (s : VoteState) (p : String)
    (hp1 : op1.post = p) (hp2 : op2.post = p) (hu : op1.user ≠ op2.user) :
    stepOp op2 (stepOp op1 s) = stepOp op1 (stepOp op2 s) ∧
    ∀ q k, voteCount (stepOp op2 (stepOp op1 s)) q k =
      voteCount (stepOp op1 (stepOp op2 s)) q k := by
  have hx : (op1.post, op1.user, op1.kind) ≠ (op2.post, op2.user, op2.kind) :=
    fun h => hu (congrArg (fun t => t.2.1) h)
  have hstate : stepOp op2 (stepOp op1 s) = stepOp op1 (stepOp op2 s) := by
    refine VoteState.eq_of ?_ ?_
    · rw [stepOp_posts, stepOp_posts, stepOp_posts, stepOp_posts]
    · ext m
      have h12 : m = (op1.post, op1.user, op1.kind) →
          m ≠ (op2.post, op2.user, op2.kind) := fun h => h ▸ hx
      have h21 : m = (op2.post, op2.user, op2.kind) →
          m ≠ (op1.post, op1.user, op1.kind) := fun h => h ▸ hx.symm
      rw [mem_stepOp, mem_stepOp, mem_stepOp, mem_stepOp,
        stepOp_posts, stepOp_posts]
      cases ha1 : op1.isAdd <;> cases ha2 : op2.isAdd <;>
        by_cases hP1 : op1.post ∈ s.posts <;> by_cases hP2 : op2.post ∈ s.posts <;>
        simp only [hP1, hP2, Bool.true_eq_false, Bool.false_eq_true, false_and,
          and_false, true_and, and_true, or_false, false_or, ne_eq,
          not_true, not_false_iff] <;>
        tauto
  exact ⟨hstate, fun q k => congrArg (fun t => voteCount t q k) hstate⟩

/-- Witness for C8: an upvote by "u1" and a downvote by "u2" on post "p1"
commute from the scenario state. -/
theorem C8_distinct_users_commute_witness :
    stepOp ⟨true, .down, "p1", "u2"⟩ (stepOp ⟨true, .up, "p1", "u1"⟩ exState) =
      stepOp ⟨true, .up, "p1", "u1"⟩ (stepOp ⟨true, .down, "p1", "u2"⟩ exState) :=
  (C8_distinct_users_commute ⟨true, .up, "p1", "u1"⟩ ⟨true, .down, "p1", "u2"⟩
    exState "p1" rfl rfl (by decide)).1

/-- Claim C9: for the falsy argument, `googleAuth` returns the
`RequestTimeoutException` class itself as an ordinary value — nothing is
thrown (the result type has no thrown outcome; the value is the marker of
the class, not an instance) — and it performs no lookup or creation in the
user store: the store is unchanged and the store-operation trace is
empty. -/
theorem C9_googleAuth_falsy_returns_exception_class
    (randomize : String → String) (store : List User) :
    googleAuth randomize none store =
      (AuthResult.requestTimeoutExceptionClass, store, ([] : List StoreOp)) :=
  rfl

theorem countOauth_append (s1 s2 : List User) (oid : String) :
    countOauth (s1 ++ s2) oid = countOauth s1 oid + countOauth s2 oid := by
  unfold countOauth
  rw [List.filter_append, List.length_append]

theorem countOauth_eq_zero_of_findOauth_none {store : List User} {oid : String}
    (h : findOauth store oid = none) : countOauth store oid = 0 := by
  unfold findOauth at h
  unfold countOauth
  rw [List.length_eq_zero, List.filter_eq_nil_iff]
  exact List.find?_eq_none.mp h

theorem countOauth_googleAuth_le (randomize : String → String)
    (r : Option GoogleDTO) (store : List User) (oid : String) :
    countOauth (googleAuth randomize r store).2.1 oid ≤ max (countOauth store oid) 1 := by
  match r with
  | none => exact le_max_left _ _
  | some dto =>
    match hfind : findOauth store dto.oauth_id with
    | some u =>
      simp only [googleAuth, hfind]
      exact le_max_left _ _
    | none =>
      simp only [googleAuth, hfind, create]
      rw [countOauth_append]
      by_cases ho : dto.oauth_id = oid
      · rw [countOauth_eq_zero_of_findOauth_none (ho ▸ hfind)]
        have hb : (dto.oauth_id == oid) = true := beq_iff_eq.mpr ho
        have h1 : countOauth [mkGoogleUser randomize dto] oid = 1 := by
          simp [countOauth, List.filter, mkGoogleUser, hb]
        rw [h1]
        exact le_max_right _ _
      · have hb : (dto.oauth_id == oid) = false := beq_eq_false_iff_ne.mpr ho
        have h0 : countOauth [mkGoogleUser randomize dto] oid = 0 := by
          simp [countOauth, List.filter, mkGoogleUser, hb]
        rw [h0]
        exact le_max_left _ _

theorem countOauth_runAuths_le (randomize : String → String)
    (reqs : List (Option GoogleDTO)) :
    ∀ store oid, countOauth (runAuths randomize store reqs) oid ≤
      max (countOauth store oid) 1 := by
  induction reqs with
  | nil => exact fun store oid => le_max_left _ _
  | cons r rest ih =>
    intro store oid
    calc countOauth (runAuths randomize store (r :: rest)) oid
        = countOauth (runAuths randomize (googleAuth randomize r store).2.1 rest) oid := rfl
      _ ≤ max (countOauth (googleAuth randomize r store).2.1 oid) 1 := ih _ _
      _ ≤ max (max (countOauth store oid) 1) 1 :=
          max_le_max (countOauth_googleAuth_le randomize r store oid) le_rfl
      _ = max (countOauth store oid) 1 := by rw [max_assoc, max_self]

/-- Claim C10: `googleAuth` on a DTO whose `oauth_id` matches an existing
user returns that user with the store unchanged and performs only the
lookup — no creation; it creates the new user — `oauth_id`, `email`,
`avatar_url` from the DTO, username randomized from `given_name` — exactly
when no user with that `oauth_id` exists; and over any sequence of
`googleAuth` calls, the number of stored users with a given `oauth_id`
never exceeds one beyond what the initial store already had: at most one
user per `oauth_id` is ever created. -/
theorem C10_googleAuth_at_most_one_user_per_oauth
    (randomize : String → String) (dto : GoogleDTO) (store : List User)
    (reqs : List (Option GoogleDTO)) (oid : String) :
    (∀ u, findOauth store dto.oauth_id = some u →
      googleAuth randomize (some dto) store =
        (.user u, store, [.findOauthOp dto.oauth_id])) ∧
    (findOauth store dto.oauth_id = none →
      googleAuth randomize (some dto) store =
        (.user (mkGoogleUser randomize dto), store ++ [mkGoogleUser randomize dto],
          [.findOauthOp dto.oauth_id, .createOp (mkGoogleUser randomize dto)])) ∧
    countOauth (runAuths randomize store reqs) oid ≤ max (countOauth store oid) 1 := by
  refine ⟨fun u hu => ?_, fun hn => ?_, countOauth_runAuths_le randomize reqs store oid⟩
  · simp [googleAuth, hu]
  · simp [googleAuth, hn, create]

/-- Witness for C10: a first call with a fresh `oauth_id` creates the
user; a second call with the same `oauth_id` returns the stored user
unchanged without creating. -/
theorem C10_googleAuth_at_most_one_user_per_oauth_witness :
    googleAuth id (some ⟨"oid1", "res@example.com", "Res", "avatar"⟩) [] =
      (.user (mkGoogleUser id ⟨"oid1", "res@example.com", "Res", "avatar"⟩),
        [] ++ [mkGoogleUser id ⟨"oid1", "res@example.com", "Res", "avatar"⟩],
        [.findOauthOp "oid1",
          .createOp (mkGoogleUser id ⟨"oid1", "res@example.com", "Res", "avatar"⟩)]) ∧
    googleAuth id (some ⟨"oid1", "res@example.com", "Res", "avatar"⟩)
        [mkGoogleUser id ⟨"oid1", "res@example.com", "Res", "avatar"⟩] =
      (.user (mkGoogleUser id ⟨"oid1", "res@example.com", "Res", "avatar"⟩),
        [mkGoogleUser id ⟨"oid1", "res@example.com", "Res", "avatar"⟩],
        [.findOauthOp "oid1"]) :=
  ⟨(C10_googleAuth_at_most_one_user_per_oauth id
      ⟨"oid1", "res@example.com", "Res", "avatar"⟩ [] [] "oid1").2.1 (by decide),
   (C10_googleAuth_at_most_one_user_per_oauth id
      ⟨"oid1", "res@example.com", "Res", "avatar"⟩
      [mkGoogleUser id ⟨"oid1", "res@example.com", "Res", "avatar"⟩] [] "oid1").1
      (mkGoogleUser id ⟨"oid1", "res@example.com", "Res", "avatar"⟩) (by decide)⟩

end Dikenang
